import Mathlib

/-!
Verification development for the doubleb real-time chat server.

This file gives a shallow embedding of the server-side message lifecycle,
reaction handling, and push-notification code:

* `server/services/pushNotificationService.js` (batching variant):
  the per-recipient notification queue (`notificationQueue`),
  `batchMessageNotification`, `sendBatchedNotification`, `sendToUser`,
  `sendToUsers`, `sendMessageNotification`, `removeSubscription`,
  `stripHtml`;
* `server/index.js`: the `send-message`, `join-chat` socket handlers and
  the delivered/read auto-advance timer;
* `server/routes/messages.js`: the reaction routes (add / remove / list
  grouped), the `PATCH /:messageId/status` route and the
  `PATCH /:messageId` edit route.

Database tables (`chat_participants`, `messages`, `message_reactions`,
`push_subscriptions`) are embedded as lists of rows, and each SQL
statement the code issues is translated to the corresponding pure list
operation.  Timestamps are abstract `Nat` ticks supplied by callers
(`CURRENT_TIMESTAMP`).  JavaScript `setTimeout` timers are modelled by
explicit events: a pending timer is a `Bool` flag, and the timer firing
is an input event of the transition system.
-/

namespace DoubleB

/-- Message delivery status, from the `messages.status` column constraint
`CHECK (status IN ('sent', 'delivered', 'read'))`. -/
inductive MessageStatus
  | sent
  | delivered
  | read
deriving DecidableEq, Repr

/-- Position of a status in the `sent < delivered < read` lattice. -/
def statusRank : MessageStatus → Nat
  | .sent => 0
  | .delivered => 1
  | .read => 2

/-- JavaScript `a || b` on a nullable string: `null`/`undefined` and the
empty string are falsy, so they fall through to `b`. -/
def jsOr (a : Option String) (b : String) : String :=
  match a with
  | none => b
  | some s => if s = "" then b else s

/-- The fields of the message object that `pushNotificationService`
reads: `sender_name`, `username`, `content`, `chat_id`, `id`, `user_id`. -/
structure MsgInfo where
  id : Nat
  chat_id : Nat
  user_id : Nat
  sender_name : Option String
  username : String
  content : String
deriving DecidableEq, Repr

/-- The fields of the chat-info object that `pushNotificationService`
reads: `name`, `display_name`. -/
structure ChatInfo where
  name : String
  display_name : Option String
deriving DecidableEq, Repr

/-- One entry of a recipient's pending list: the `{ message, chatInfo }`
pair pushed by `batchMessageNotification`. -/
structure PendingItem where
  message : MsgInfo
  chatInfo : ChatInfo
deriving DecidableEq, Repr

/-- Helper for `stripTags`: after seeing `'<'`, the regex `<[^>]*>`
matches up to the first `'>'`; `dropTag cs` returns the characters after
that `'>'`, or `none` when no `'>'` follows (no match). -/
def dropTag : List Char → Option (List Char)
  | [] => none
  | c :: rest => if c = '>' then some rest else dropTag rest

/-- Global replacement of the regex `<[^>]*>` by the empty string, as in
`html.replace(/<[^>]*>/g, '')`. -/
def stripTags : List Char → List Char
  | [] => []
  | c :: rest =>
    if c = '<' then
      match h : dropTag rest with
      | some rest2 => stripTags rest2
      | none => c :: stripTags rest
    else
      c :: stripTags rest
termination_by l => l.length
decreasing_by
  · have key : ∀ (l l2 : List Char), dropTag l = some l2 → l2.length < l.length := by
      intro l
      induction l with
      | nil => intro l2 hl; simp [dropTag] at hl
      | cons a as ih =>
        intro l2 hl
        by_cases ha : a = '>'
        · simp [dropTag, ha] at hl
          subst hl
          simp [List.length_cons, Nat.lt_succ_self]
        · simp [dropTag, ha] at hl
          exact Nat.lt_trans (ih l2 hl) (Nat.lt_succ_self _)
    exact Nat.lt_trans (key rest rest2 h) (Nat.lt_succ_self _)
  · simp [List.length_cons, Nat.lt_succ_self]
  · simp [List.length_cons, Nat.lt_succ_self]

/-- `PushNotificationService.stripHtml`: strips `<...>` tags and trims;
a falsy (empty) input yields the empty string. -/
def stripHtml (html : String) : String :=
  if html = "" then ""
  else (String.mk (stripTags html.data)).trim

/-- One element of the notification payload's `actions` array. -/
structure NotificationAction where
  action : String
  title : String
  icon : String
deriving DecidableEq, Repr

/-- The `data` field of a batched message-notification payload. -/
structure PayloadData where
  url : String
  chatId : Nat
  messageId : Nat
  type : String
  batchCount : Nat
deriving DecidableEq, Repr

/-- A web-push notification payload as built by
`sendBatchedNotification`. -/
structure Payload where
  title : String
  body : String
  icon : String
  badge : String
  data : PayloadData
  actions : List NotificationAction
  requireInteraction : Bool
  silent : Bool
  tag : String
deriving DecidableEq, Repr

/-- A recipient's accumulator in `notificationQueue`: the pending
`messages` list and whether a flush timer is currently pending
(the JS `timeout` handle, abstracted to a flag). -/
structure UserQueue where
  messages : List PendingItem
  timeout : Bool
deriving DecidableEq, Repr

/-- The state of a queue entry that does not exist yet (or was just
flushed): `{ messages: [], timeout: null }`. -/
def UserQueue.empty : UserQueue := ⟨[], false⟩

/-- The `notificationQueue` map (`userId -> { messages, timeout }`), as a
total function with `UserQueue.empty` standing for absent keys (the code
creates the entry on demand before using it). -/
def CoalState := Nat → UserQueue

/-- The per-recipient body of `batchMessageNotification`: append the
item to the recipient's pending list, clear any pending timer and start
a fresh one (`clearTimeout` + `setTimeout`). -/
def enqueueForUser (st : CoalState) (uid : Nat) (item : PendingItem) : CoalState :=
  fun u =>
    if u = uid then { messages := (st uid).messages ++ [item], timeout := true }
    else st u

/-- `PushNotificationService.batchMessageNotification(message, chatInfo,
userIds)`: enqueue the `{ message, chatInfo }` pair for every target
user. -/
def batchMessageNotification (st : CoalState) (item : PendingItem)
    (userIds : List Nat) : CoalState :=
  userIds.foldl (fun s uid => enqueueForUser s uid item) st

/-- `PushNotificationService.sendBatchedNotification(userId)`: if the
recipient's pending list is empty, do nothing; otherwise build a single
merged payload from the pending list (all identity fields taken from
`messages[0]`), clear the accumulator, and dispatch the payload. -/
def sendBatchedNotification (st : CoalState) (uid : Nat) :
    CoalState × Option Payload :=
  match (st uid).messages with
  | [] => (st, none)
  | m0 :: rest =>
    let messages := m0 :: rest
    let chatInfo := m0.chatInfo
    let titleBody : String × String :=
      if messages.length = 1 then
        (jsOr m0.message.sender_name m0.message.username ++ " in " ++
           jsOr chatInfo.display_name chatInfo.name,
         stripHtml m0.message.content)
      else
        (jsOr m0.message.sender_name m0.message.username ++ " in " ++
           jsOr chatInfo.display_name chatInfo.name,
         toString messages.length ++ " new messages")
    let payload : Payload :=
      { title := titleBody.1
        body := titleBody.2
        icon := "/manifest.json"
        badge := "/manifest.json"
        data :=
          { url := "/chat/" ++ toString m0.message.chat_id
            chatId := m0.message.chat_id
            messageId := m0.message.id
            type := "message"
            batchCount := messages.length }
        actions :=
          [⟨"open", "Open Chat", "/manifest.json"⟩,
           ⟨"close", "Close", "/manifest.json"⟩]
        requireInteraction := true
        silent := false
        tag := "chat-" ++ toString m0.message.chat_id }
    (fun u => if u = uid then UserQueue.empty else st u, some payload)

/-- Inputs driving the coalescer: a candidate notification arriving for
a set of target users, or a recipient's pending flush timer firing. -/
inductive CoalEvent
  | arrive (item : PendingItem) (userIds : List Nat)
  | fire (uid : Nat)

/-- One step of the coalescer; the output list collects push dispatches
(`sendToUser` calls), tagged with the recipient. -/
def coalStep (st : CoalState) : CoalEvent → CoalState × List (Nat × Payload)
  | .arrive item userIds => (batchMessageNotification st item userIds, [])
  | .fire uid =>
    match sendBatchedNotification st uid with
    | (st2, none) => (st2, [])
    | (st2, some p) => (st2, [(uid, p)])

/-- Run the coalescer over a sequence of events, collecting dispatches. -/
def coalRun (st : CoalState) : List CoalEvent → CoalState × List (Nat × Payload)
  | [] => (st, [])
  | e :: es =>
    let s1 := coalStep st e
    let s2 := coalRun s1.1 es
    (s2.1, s1.2 ++ s2.2)

/-- A row of the `messages` table (columns used by the embedded code). -/
structure MessageRow where
  id : Nat
  chat_id : Nat
  sender_id : Nat
  content : String
  message_type : String
  image_data : Option String
  quoted_message_id : Option Nat
  quoted_content : Option String
  quoted_sender_name : Option String
  status : MessageStatus
  edited : Bool
  edited_at : Option Nat
  created_at : Nat
  updated_at : Nat
deriving DecidableEq, Repr

/-- A row of the `message_reactions` table.  The serial `id` column is
not modelled; identity is the `(message_id, user_id, emoji)` UNIQUE key. -/
structure ReactionRow where
  message_id : Nat
  user_id : Nat
  emoji : String
  created_at : Nat
deriving DecidableEq, Repr

/-- A row of the `push_subscriptions` table.  The `subscription_data`
JSON is summarized by its `endpoint`, which is what the dispatch loop
and `removeSubscription` key on (`UNIQUE(user_id, endpoint)`). -/
structure SubscriptionRow where
  user_id : Nat
  endpoint : String
deriving DecidableEq, Repr

/-- A row of the `users` table (columns read by the reaction joins). -/
structure UserRow where
  id : Nat
  username : String
  display_name : String
deriving DecidableEq, Repr

/-- The durable store: the tables touched by the embedded operations.
`chat_participants` rows are `(chat_id, user_id)` pairs. -/
structure Db where
  chat_participants : List (Nat × Nat)
  messages : List MessageRow
  message_reactions : List ReactionRow
  push_subscriptions : List SubscriptionRow
deriving DecidableEq, Repr

/-- `SELECT 1 FROM chat_participants WHERE chat_id = $1 AND user_id = $2`
returned at least one row. -/
def isParticipant (db : Db) (chatId userId : Nat) : Bool :=
  db.chat_participants.contains (chatId, userId)

/-- The quoted-message object optionally carried by a `send-message`
socket event. -/
structure QuotedMessage where
  id : Nat
  content : String
  sender_name : Option String
  username : String
deriving DecidableEq, Repr

/-- Result of the `send-message` socket handler: either a typed error
event (`socket.emit('error', { message })`) or the persisted row. -/
inductive SendMessageResult
  | errorMsg (message : String)
  | ok (m : MessageRow)
deriving DecidableEq, Repr

/-- The row inserted by the `send-message` handler:
`INSERT INTO messages (chat_id, sender_id, content, message_type,
quoted_message_id, quoted_content, quoted_sender_name, status)
VALUES (..., 'sent')`, with `quotedSenderName = quotedMessage.sender_name
|| quotedMessage.username`. -/
def sentRowOf (userId chatId : Nat) (content messageType : String)
    (quoted : Option QuotedMessage) (newId now : Nat) : MessageRow :=
  { id := newId
    chat_id := chatId
    sender_id := userId
    content := content
    message_type := messageType
    image_data := none
    quoted_message_id := quoted.map (·.id)
    quoted_content := quoted.map (·.content)
    quoted_sender_name := quoted.map (fun q => jsOr q.sender_name q.username)
    status := .sent
    edited := false
    edited_at := none
    created_at := now
    updated_at := now }

/-- The synchronous part of the `send-message` socket handler
(`server/index.js`): membership check, then
`INSERT INTO messages (..., status) VALUES (..., 'sent')`.
`newId` is the serial id the store assigns; `now` is
`CURRENT_TIMESTAMP`. -/
def sendMessageSocket (db : Db) (userId chatId : Nat) (content : String)
    (messageType : String) (quoted : Option QuotedMessage) (newId now : Nat) :
    Db × SendMessageResult :=
  if isParticipant db chatId userId then
    ({ db with messages := db.messages ++
        [sentRowOf userId chatId content messageType quoted newId now] },
     .ok (sentRowOf userId chatId content messageType quoted newId now))
  else
    (db, .errorMsg "Access denied")

/-- `UPDATE messages SET status = $st, updated_at = CURRENT_TIMESTAMP
WHERE id = $mid`. -/
def updateMessageStatus (ms : List MessageRow) (mid : Nat) (st : MessageStatus)
    (now : Nat) : List MessageRow :=
  ms.map fun m => if m.id = mid then { m with status := st, updated_at := now } else m

/-- A `message-status-updated` event broadcast to the chat room. -/
structure StatusEvent where
  messageId : Nat
  status : MessageStatus
deriving DecidableEq, Repr

/-- The body of the `setTimeout` callback scheduled by `send-message`
(`server/index.js`): set the message to `delivered` and broadcast; then,
if any connected socket in the room belongs to a non-sender, set it to
`read` and broadcast.  `connectedUserIds` are the user ids of the
sockets currently in room `chat-<chatId>`. -/
def autoAdvanceStatus (db : Db) (messageId senderId : Nat)
    (connectedUserIds : List Nat) (now : Nat) : Db × List StatusEvent :=
  let db1 := { db with messages := updateMessageStatus db.messages messageId .delivered now }
  let others := connectedUserIds.filter (fun u => decide (u ≠ senderId))
  if others.length > 0 then
    ({ db1 with messages := updateMessageStatus db1.messages messageId .read now },
     [⟨messageId, .delivered⟩, ⟨messageId, .read⟩])
  else
    (db1, [⟨messageId, .delivered⟩])

/-- Look a message up by id (`WHERE id = $1`; ids are unique). -/
def findMessage (db : Db) (mid : Nat) : Option MessageRow :=
  db.messages.find? (fun m => decide (m.id = mid))

/-- Result of an HTTP route: a JSON value or an error status + message. -/
inductive ApiResult (α : Type)
  | ok (value : α)
  | error (status : Nat) (message : String)
deriving DecidableEq, Repr

/-- `PATCH /api/messages/:messageId/status` (`routes/messages.js`):
access check joining `chat_participants`, then an unconditional
`UPDATE messages SET status = $1 WHERE id = $2` — the current status is
never consulted. -/
def patchMessageStatus (db : Db) (userId messageId : Nat)
    (newStatus : MessageStatus) (now : Nat) : Db × ApiResult MessageStatus :=
  if db.messages.any (fun m =>
      decide (m.id = messageId) && db.chat_participants.contains (m.chat_id, userId)) then
    ({ db with messages := updateMessageStatus db.messages messageId newStatus now },
     .ok newStatus)
  else
    (db, .error 404 "Message not found or access denied")

/-- The `(message_id, user_id, emoji)` triple test used by the reaction
statements. -/
def matchesTriple (mid uid : Nat) (emoji : String) (r : ReactionRow) : Bool :=
  decide (r.message_id = mid ∧ r.user_id = uid ∧ r.emoji = emoji)

/-- `INSERT INTO message_reactions ... ON CONFLICT (message_id, user_id,
emoji) DO UPDATE SET created_at = CURRENT_TIMESTAMP`: refresh the
timestamp when the triple exists, insert a fresh row otherwise. -/
def upsertReaction (rs : List ReactionRow) (mid uid : Nat) (emoji : String)
    (now : Nat) : List ReactionRow :=
  if rs.any (matchesTriple mid uid emoji) then
    rs.map fun r => if matchesTriple mid uid emoji r then { r with created_at := now } else r
  else
    rs ++ [⟨mid, uid, emoji, now⟩]

/-- `DELETE FROM message_reactions WHERE message_id = $1 AND
user_id = $2 AND emoji = $3`. -/
def deleteReaction (rs : List ReactionRow) (mid uid : Nat) (emoji : String) :
    List ReactionRow :=
  rs.filter fun r => !(matchesTriple mid uid emoji r)

/-- Number of stored rows carrying a given triple. -/
def countTriple (rs : List ReactionRow) (mid uid : Nat) (emoji : String) : Nat :=
  (rs.filter (matchesTriple mid uid emoji)).length

/-- The shared access check of the per-message routes:
`SELECT m.* FROM messages m JOIN chat_participants cp ON m.chat_id =
cp.chat_id WHERE m.id = $1 AND cp.user_id = $2`. -/
def messageAccessCheck (db : Db) (messageId userId : Nat) : Option MessageRow :=
  db.messages.find? (fun m =>
    decide (m.id = messageId) && db.chat_participants.contains (m.chat_id, userId))

/-- `POST /api/messages/:messageId/reactions`: access check, then the
idempotent upsert. -/
def addReaction (db : Db) (userId messageId : Nat) (emoji : String) (now : Nat) :
    Db × ApiResult ReactionRow :=
  match messageAccessCheck db messageId userId with
  | none => (db, .error 404 "Message not found or access denied")
  | some _ =>
    ({ db with message_reactions := upsertReaction db.message_reactions messageId userId emoji now },
     .ok ⟨messageId, userId, emoji, now⟩)

/-- `DELETE /api/messages/:messageId/reactions/:emoji`: access check,
delete the triple, 404 when nothing was deleted. -/
def removeReaction (db : Db) (userId messageId : Nat) (emoji : String) :
    Db × ApiResult Unit :=
  match messageAccessCheck db messageId userId with
  | none => (db, .error 404 "Message not found or access denied")
  | some _ =>
    let remaining := deleteReaction db.message_reactions messageId userId emoji
    if remaining.length = db.message_reactions.length then
      (db, .error 404 "Reaction not found")
    else
      ({ db with message_reactions := remaining }, .ok ())

/-- `PATCH /api/messages/:messageId` (edit): the check is
`WHERE m.id = $1 AND m.sender_id = $2` — sendership only, no
`chat_participants` join — then the text-type guard, then the content
update. -/
def editMessage (db : Db) (userId messageId : Nat) (content : String)
    (now : Nat) : Db × ApiResult MessageRow :=
  match db.messages.find? (fun m => decide (m.id = messageId ∧ m.sender_id = userId)) with
  | none => (db, .error 404 "Message not found or you are not the sender")
  | some m =>
    if m.message_type ≠ "text" then
      (db, .error 400 "Only text messages can be edited")
    else
      let upd : MessageRow → MessageRow := fun x =>
        if x.id = messageId then
          { x with content := content, edited := true, edited_at := some now, updated_at := now }
        else x
      ({ db with messages := db.messages.map upd },
       .ok { m with content := content, edited := true, edited_at := some now, updated_at := now })

/-- The `join-chat` socket handler (`server/index.js`): membership
check; on success the bulk update
`UPDATE messages SET status = 'read' WHERE chat_id = $1 AND
sender_id != $2 AND status != 'read'`, then a `message-status-updated`
broadcast for every message of the chat that is now `read` and not from
the joining user. -/
def joinChatMarkRead (db : Db) (chatId userId : Nat) (now : Nat) :
    Db × List StatusEvent :=
  if isParticipant db chatId userId then
    let ms := db.messages.map fun m =>
      if m.chat_id = chatId ∧ m.sender_id ≠ userId ∧ m.status ≠ .read then
        { m with status := .read, updated_at := now }
      else m
    let updated := ms.filter fun m =>
      decide (m.chat_id = chatId ∧ m.sender_id ≠ userId ∧ m.status = .read)
    ({ db with messages := ms }, updated.map fun m => ⟨m.id, .read⟩)
  else
    (db, [])

/-- One element of the `users` array aggregated per reaction group
(`JSON_BUILD_OBJECT('user_id', ..., 'username', ..., 'display_name',
..., 'created_at', ...)`). -/
structure ReactionUserEntry where
  user_id : Nat
  username : String
  display_name : String
  created_at : Nat
deriving DecidableEq, Repr

/-- One row of the grouped-reaction result set: `emoji`, `COUNT(*)`,
`ARRAY_AGG(...)`. -/
structure ReactionGroup where
  emoji : String
  count : Nat
  users : List ReactionUserEntry
deriving DecidableEq, Repr

/-- `FROM message_reactions mr JOIN users u ON mr.user_id = u.id WHERE
mr.message_id = $1`: each reaction row of the message paired with its
user row (`users.id` is the primary key, so `find?` is the join). -/
def reactionRowsFor (rs : List ReactionRow) (users : List UserRow) (mid : Nat) :
    List (ReactionRow × UserRow) :=
  (rs.filter (fun r => decide (r.message_id = mid))).filterMap fun r =>
    (users.find? (fun u => decide (u.id = r.user_id))).map (fun u => (r, u))

/-- Build one aggregated user entry from a joined row. -/
def userEntry (p : ReactionRow × UserRow) : ReactionUserEntry :=
  ⟨p.1.user_id, p.2.username, p.2.display_name, p.1.created_at⟩

/-- The group built for one emoji: its row count and aggregated users. -/
def groupFor (rows : List (ReactionRow × UserRow)) (e : String) : ReactionGroup :=
  let matching := rows.filter fun p => decide (p.1.emoji = e)
  ⟨e, matching.length, matching.map userEntry⟩

/-- The sort key of `ORDER BY COUNT(*) DESC, mr.emoji`: higher counts
first, ties broken by emoji ascending. -/
def groupLE (a b : ReactionGroup) : Prop :=
  b.count < a.count ∨ (a.count = b.count ∧ a.emoji ≤ b.emoji)

instance : DecidableRel groupLE := fun a b => by
  unfold groupLE; infer_instance

instance : IsTotal ReactionGroup groupLE where
  total a b := by
    rcases Nat.lt_trichotomy a.count b.count with h | h | h
    · exact Or.inr (Or.inl h)
    · rcases le_total a.emoji b.emoji with he | he
      · exact Or.inl (Or.inr ⟨h, he⟩)
      · exact Or.inr (Or.inr ⟨h.symm, he⟩)
    · exact Or.inl (Or.inl h)

instance : IsTrans ReactionGroup groupLE where
  trans a b c hab hbc := by
    rcases hab with h1 | ⟨h1, h1'⟩
    · rcases hbc with h2 | ⟨h2, _⟩
      · exact Or.inl (h2.trans h1)
      · exact Or.inl (h2 ▸ h1)
    · rcases hbc with h2 | ⟨h2, h2'⟩
      · exact Or.inl (by rw [h1]; exact h2)
      · exact Or.inr ⟨h1.trans h2, h1'.trans h2'⟩

/-- `GET /api/messages/:messageId/reactions` result set:
`GROUP BY mr.emoji ORDER BY COUNT(*) DESC, mr.emoji`.  Grouping is one
group per distinct emoji of the joined rows; ordering is an insertion
sort under `groupLE`. -/
def groupedReactions (rs : List ReactionRow) (users : List UserRow) (mid : Nat) :
    List ReactionGroup :=
  let rows := reactionRowsFor rs users mid
  List.insertionSort groupLE (((rows.map (fun p => p.1.emoji)).dedup).map (groupFor rows))

/-- `SELECT DISTINCT user_id FROM chat_participants WHERE chat_id = $1
AND user_id != $2`, with `$2 = excludeUserId || message.user_id`: the
targets of `sendMessageNotification`.  Note: the connection registry is
not consulted. -/
def notificationTargets (db : Db) (msgChatId msgUserId : Nat)
    (excludeUserId : Option Nat) : List Nat :=
  let excl := excludeUserId.getD msgUserId
  ((db.chat_participants.filter (fun p => decide (p.1 = msgChatId ∧ p.2 ≠ excl))).map
    Prod.snd).dedup

/-- `PushNotificationService.sendMessageNotification(message, chatInfo,
excludeUserId)` (batching variant): compute the non-sender participants
and hand the `{ message, chatInfo }` pair to the coalescer for each. -/
def sendMessageNotificationCoal (db : Db) (st : CoalState) (message : MsgInfo)
    (chatInfo : ChatInfo) (excludeUserId : Option Nat) : CoalState :=
  let userIds := notificationTargets db message.chat_id message.user_id excludeUserId
  if userIds.isEmpty then st
  else batchMessageNotification st ⟨message, chatInfo⟩ userIds

/-- Outcome of one `webpush.sendNotification` call: success, or a
rejection carrying the provider's HTTP `statusCode` (absent for e.g.
network errors) and an error message. -/
inductive PushOutcome
  | ok
  | fail (statusCode : Option Nat) (message : String)
deriving DecidableEq, Repr

/-- The pruning condition of the dispatch loop:
`error.statusCode === 410 || error.statusCode === 404`. -/
def isGoneSignal : PushOutcome → Bool
  | .ok => false
  | .fail code _ => decide (code = some 410 ∨ code = some 404)

/-- One element of the `results` array built by `sendToUser`. -/
structure SendEntry where
  success : Bool
  error : Option String
  subscription : String
deriving DecidableEq, Repr

/-- The summary object `sendToUser` returns after running its loop. -/
structure SendSummary where
  success : Bool
  sent : Nat
  total : Nat
  results : List SendEntry
deriving DecidableEq, Repr

/-- Result of `sendToUser`, covering its early returns. -/
inductive SendToUserResult
  | notConfigured
  | noSubscriptions
  | summary (s : SendSummary)
deriving DecidableEq, Repr

/-- `PushNotificationService.removeSubscription(userId, endpoint)`:
`DELETE FROM push_subscriptions WHERE user_id = $1 AND endpoint = $2`. -/
def removeSubscriptionRows (subs : List SubscriptionRow) (uid : Nat)
    (endpoint : String) : List SubscriptionRow :=
  subs.filter fun r => !(decide (r.user_id = uid ∧ r.endpoint = endpoint))

/-- The per-subscription dispatch loop of `sendToUser`: one attempt per
subscription; a failure with a gone/expired status code deletes that
subscription, any failure is recorded in `results`, and the loop always
continues with the remaining subscriptions.  `outcome` is the provider's
response, keyed by endpoint. -/
def sendLoop (store : List SubscriptionRow) (uid : Nat)
    (outcome : String → PushOutcome) :
    List String → List SubscriptionRow × List SendEntry
  | [] => (store, [])
  | e :: rest =>
    match outcome e with
    | .ok =>
      let s := sendLoop store uid outcome rest
      (s.1, ⟨true, none, e⟩ :: s.2)
    | .fail code msg =>
      let store1 :=
        if code = some 410 ∨ code = some 404 then removeSubscriptionRows store uid e
        else store
      let s := sendLoop store1 uid outcome rest
      (s.1, ⟨false, some msg, e⟩ :: s.2)

/-- `PushNotificationService.sendToUser(userId, payload)`: configuration
guard, fetch the user's subscriptions, run the dispatch loop, and build
the summary (`success` iff at least one dispatch succeeded). -/
def sendToUser (configured : Bool) (store : List SubscriptionRow) (uid : Nat)
    (outcome : String → PushOutcome) : List SubscriptionRow × SendToUserResult :=
  if configured = false then (store, .notConfigured)
  else
    let endpoints := (store.filter (fun r => decide (r.user_id = uid))).map (·.endpoint)
    if endpoints.isEmpty then (store, .noSubscriptions)
    else
      let s := sendLoop store uid outcome endpoints
      let successCount := (s.2.filter (·.success)).length
      (s.1, .summary ⟨decide (0 < successCount), successCount, endpoints.length, s.2⟩)

/-- `PushNotificationService.sendToUsers(userIds, payload)`: dispatch to
every listed recipient in turn, collecting per-recipient results; no
recipient's failure stops the loop. -/
def sendToUsers (configured : Bool) (store : List SubscriptionRow)
    (outcome : String → PushOutcome) :
    List Nat → List SubscriptionRow × List (Nat × SendToUserResult)
  | [] => (store, [])
  | u :: rest =>
    let s1 := sendToUser configured store u outcome
    let s2 := sendToUsers configured s1.1 outcome rest
    (s2.1, (u, s1.2) :: s2.2)

/-- Sample data for concrete evaluations: a message in chat 7. -/
def sampleMsgA : MsgInfo := ⟨10, 7, 1, some "Alice", "alice", "hello"⟩

/-- Sample chat info for chat 7. -/
def sampleChatA : ChatInfo := ⟨"room", some "Room 7"⟩

/-- Sample pending item for chat 7. -/
def sampleItemA : PendingItem := ⟨sampleMsgA, sampleChatA⟩

/-- Sample data for concrete evaluations: a message in chat 8. -/
def sampleMsgB : MsgInfo := ⟨11, 8, 1, none, "bob", "yo"⟩

/-- Sample chat info for chat 8. -/
def sampleChatB : ChatInfo := ⟨"other", none⟩

/-- Sample pending item for chat 8. -/
def sampleItemB : PendingItem := ⟨sampleMsgB, sampleChatB⟩

/-- The coalescer state with no pending accumulator for any recipient. -/
def emptyCoal : CoalState := fun _ => UserQueue.empty

/-- A `read` message of chat 7 sent by user 2. -/
def msgReadRow : MessageRow :=
  { id := 1, chat_id := 7, sender_id := 2, content := "hi",
    message_type := "text", image_data := none, quoted_message_id := none,
    quoted_content := none, quoted_sender_name := none, status := .read,
    edited := false, edited_at := none, created_at := 0, updated_at := 0 }

/-- Store for the status counterexample: message 1 of chat 7 is already
`read`, and user 1 is a participant of chat 7. -/
def dbStatusCex : Db :=
  { chat_participants := [(7, 1)]
    messages := [msgReadRow]
    message_reactions := []
    push_subscriptions := [] }

/-- A text message of chat 7 sent by user 1. -/
def msgFromUser1 : MessageRow :=
  { id := 1, chat_id := 7, sender_id := 1, content := "hi",
    message_type := "text", image_data := none, quoted_message_id := none,
    quoted_content := none, quoted_sender_name := none, status := .sent,
    edited := false, edited_at := none, created_at := 0, updated_at := 0 }

/-- Store for the edit counterexample: user 1 wrote message 1 in chat 7
but is not (any longer) a participant — only user 2 is. -/
def dbEditCex : Db :=
  { chat_participants := [(7, 2)]
    messages := [msgFromUser1]
    message_reactions := []
    push_subscriptions := [] }

/-- A text message of chat 7 sent by user 2. -/
def msgFromUser2 : MessageRow :=
  { id := 1, chat_id := 7, sender_id := 2, content := "hi",
    message_type := "text", image_data := none, quoted_message_id := none,
    quoted_content := none, quoted_sender_name := none, status := .sent,
    edited := false, edited_at := none, created_at := 0, updated_at := 0 }

/-- Store for the access-control witness: chat 7 contains only user 2;
user 1 is neither a member nor the sender of message 1. -/
def dbAccessWit : Db :=
  { chat_participants := [(7, 2)]
    messages := [msgFromUser2]
    message_reactions := []
    push_subscriptions := [] }

/-- Store for the lifecycle witness: users 1 and 2 share chat 7. -/
def dbLifecycleWit : Db :=
  { chat_participants := [(7, 1), (7, 2)]
    messages := []
    message_reactions := []
    push_subscriptions := [] }

/-- Store for the join-chat witness: user 2 is a member of chat 7,
which holds one `sent` message from user 1. -/
def dbJoinWit : Db :=
  { chat_participants := [(7, 2)]
    messages := [msgFromUser1]
    message_reactions := []
    push_subscriptions := [] }

/-! ### Coalescer lemmas -/

theorem coalRun_append (st : CoalState) (a b : List CoalEvent) :
    coalRun st (a ++ b) =
      ((coalRun (coalRun st a).1 b).1,
        (coalRun st a).2 ++ (coalRun (coalRun st a).1 b).2) := by
  induction a generalizing st with
  | nil => simp [coalRun]
  | cons e es ih => simp [coalRun, ih, List.append_assoc]

theorem enqueueForUser_self (st : CoalState) (uid : Nat) (item : PendingItem) :
    enqueueForUser st uid item uid =
      { messages := (st uid).messages ++ [item], timeout := true } := by
  simp [enqueueForUser]

/-- Running a burst of arrivals for one recipient emits no dispatch and
accumulates the items, in order, in that recipient's pending list. -/
theorem coalRun_arrives (u : Nat) (items : List PendingItem) (st0 : CoalState) :
    (coalRun st0 (items.map (fun i => CoalEvent.arrive i [u]))).2 = [] ∧
    ((coalRun st0 (items.map (fun i => CoalEvent.arrive i [u]))).1) u =
      { messages := (st0 u).messages ++ items
        timeout := if items.isEmpty then (st0 u).timeout else true } := by
  induction items generalizing st0 with
  | nil => simp [coalRun]
  | cons i rest ih =>
    have hstep : batchMessageNotification st0 i [u] = enqueueForUser st0 u i := by
      simp [batchMessageNotification]
    have h1 := ih (enqueueForUser st0 u i)
    refine ⟨?_, ?_⟩
    · simpa [coalRun, coalStep, hstep] using h1.1
    · have h2 := h1.2
      rw [enqueueForUser_self] at h2
      simp only [coalRun, coalStep, hstep, List.map_cons]
      rw [h2]
      cases rest with
      | nil => simp
      | cons j js => simp

/-- C1: for a recipient whose accumulator is empty, a burst of N ≥ 1
candidate notifications within one coalescing window (each arrival
resetting the 500 ms timer) followed by the window elapsing produces
exactly one push dispatch for that recipient; the payload's
`batchCount` equals N, its body is the single stripped message preview
when N = 1 and "N new messages" when N > 1, and the recipient's
accumulator (pending list and timer handle) is cleared by the flush. -/
theorem coalescer_single_dispatch (u : Nat) (st0 : CoalState)
    (h0 : st0 u = UserQueue.empty) (i0 : PendingItem) (rest : List PendingItem) :
    (coalRun st0 (((i0 :: rest).map (fun i => CoalEvent.arrive i [u])) ++
        [CoalEvent.fire u])).2.map Prod.fst = [u] ∧
    (∀ p : Payload,
        (u, p) ∈ (coalRun st0 (((i0 :: rest).map (fun i => CoalEvent.arrive i [u])) ++
            [CoalEvent.fire u])).2 →
        p.data.batchCount = (i0 :: rest).length ∧
        p.body = (if (i0 :: rest).length = 1 then stripHtml i0.message.content
                  else toString (i0 :: rest).length ++ " new messages")) ∧
    (coalRun st0 (((i0 :: rest).map (fun i => CoalEvent.arrive i [u])) ++
        [CoalEvent.fire u])).1 u = UserQueue.empty := by
  obtain ⟨hout, hq⟩ := coalRun_arrives u (i0 :: rest) st0
  rw [h0] at hq
  have hq' : ((coalRun st0 ((i0 :: rest).map (fun i => CoalEvent.arrive i [u]))).1) u
      = ⟨i0 :: rest, true⟩ := by
    simpa [UserQueue.empty] using hq
  rw [coalRun_append]
  set A := coalRun st0 ((i0 :: rest).map (fun i => CoalEvent.arrive i [u])) with hA
  refine ⟨?_, ?_, ?_⟩
  · simp [coalRun, coalStep, sendBatchedNotification, hq', hout]
  · intro p hp
    simp [coalRun, coalStep, sendBatchedNotification, hq', hout] at hp
    subst hp
    refine ⟨rfl, ?_⟩
    cases rest with
    | nil => simp
    | cons j js => simp
  · simp [coalRun, coalStep, sendBatchedNotification, hq', hout]

/-- Witness for C1: a concrete two-message burst for recipient 5. -/
theorem coalescer_single_dispatch_witness :
    (emptyCoal 5 = UserQueue.empty) ∧
    ((coalRun emptyCoal (((sampleItemA :: [sampleItemB]).map
          (fun i => CoalEvent.arrive i [5])) ++ [CoalEvent.fire 5])).2.map Prod.fst = [5] ∧
      (∀ p : Payload,
          (5, p) ∈ (coalRun emptyCoal (((sampleItemA :: [sampleItemB]).map
              (fun i => CoalEvent.arrive i [5])) ++ [CoalEvent.fire 5])).2 →
          p.data.batchCount = (sampleItemA :: [sampleItemB]).length ∧
          p.body = (if (sampleItemA :: [sampleItemB]).length = 1 then
                      stripHtml sampleItemA.message.content
                    else toString (sampleItemA :: [sampleItemB]).length ++ " new messages")) ∧
      (coalRun emptyCoal (((sampleItemA :: [sampleItemB]).map
          (fun i => CoalEvent.arrive i [5])) ++ [CoalEvent.fire 5])).1 5 = UserQueue.empty) :=
  ⟨rfl, coalescer_single_dispatch 5 emptyCoal rfl sampleItemA [sampleItemB]⟩

/-- C10: the accumulator is keyed by recipient only: two candidate
notifications from different chats for the same recipient land in the
same per-recipient pending list, and the single merged payload's title,
deep-link url, chatId, messageId and tag all come from the first
pending item, so the second chat's message is reported under the first
chat's identity. -/
theorem batch_merges_across_chats (u : Nat) (st0 : CoalState)
    (h0 : st0 u = UserQueue.empty) (i1 i2 : PendingItem)
    (hchat : i1.message.chat_id ≠ i2.message.chat_id) :
    ((coalRun st0 [CoalEvent.arrive i1 [u], CoalEvent.arrive i2 [u]]).1 u).messages
        = [i1, i2] ∧
    (coalRun st0 [CoalEvent.arrive i1 [u], CoalEvent.arrive i2 [u],
        CoalEvent.fire u]).2.map Prod.fst = [u] ∧
    (∀ p : Payload,
        (u, p) ∈ (coalRun st0 [CoalEvent.arrive i1 [u], CoalEvent.arrive i2 [u],
            CoalEvent.fire u]).2 →
        p.title = jsOr i1.message.sender_name i1.message.username ++ " in " ++
            jsOr i1.chatInfo.display_name i1.chatInfo.name ∧
        p.body = "2 new messages" ∧
        p.data.batchCount = 2 ∧
        p.data.url = "/chat/" ++ toString i1.message.chat_id ∧
        p.data.chatId = i1.message.chat_id ∧
        p.data.messageId = i1.message.id ∧
        p.tag = "chat-" ++ toString i1.message.chat_id ∧
        p.data.chatId ≠ i2.message.chat_id) := by
  have harr : ∀ x, (coalRun st0 [CoalEvent.arrive i1 [u], CoalEvent.arrive i2 [u]]).1 x
      = (enqueueForUser (enqueueForUser st0 u i1) u i2) x := by
    intro x
    simp [coalRun, coalStep, batchMessageNotification]
  have hq2 : enqueueForUser (enqueueForUser st0 u i1) u i2 u = ⟨[i1, i2], true⟩ := by
    simp [enqueueForUser, h0, UserQueue.empty]
  have hq : (coalRun st0 [CoalEvent.arrive i1 [u], CoalEvent.arrive i2 [u]]).1 u
      = ⟨[i1, i2], true⟩ := by
    rw [harr]; exact hq2
  refine ⟨by rw [hq], ?_, ?_⟩
  · simp [coalRun, coalStep, sendBatchedNotification, batchMessageNotification, hq2]
  · intro p hp
    simp [coalRun, coalStep, sendBatchedNotification, batchMessageNotification, hq2] at hp
    subst hp
    refine ⟨rfl, rfl, rfl, rfl, rfl, rfl, rfl, hchat⟩

/-- Witness for C10: recipient 5, pending items from chats 7 and 8. -/
theorem batch_merges_across_chats_witness :
    (emptyCoal 5 = UserQueue.empty) ∧
    (sampleItemA.message.chat_id ≠ sampleItemB.message.chat_id) ∧
    (((coalRun emptyCoal [CoalEvent.arrive sampleItemA [5],
          CoalEvent.arrive sampleItemB [5]]).1 5).messages = [sampleItemA, sampleItemB] ∧
      (coalRun emptyCoal [CoalEvent.arrive sampleItemA [5],
          CoalEvent.arrive sampleItemB [5], CoalEvent.fire 5]).2.map Prod.fst = [5] ∧
      (∀ p : Payload,
          (5, p) ∈ (coalRun emptyCoal [CoalEvent.arrive sampleItemA [5],
              CoalEvent.arrive sampleItemB [5], CoalEvent.fire 5]).2 →
          p.title = jsOr sampleItemA.message.sender_name sampleItemA.message.username ++
              " in " ++ jsOr sampleItemA.chatInfo.display_name sampleItemA.chatInfo.name ∧
          p.body = "2 new messages" ∧
          p.data.batchCount = 2 ∧
          p.data.url = "/chat/" ++ toString sampleItemA.message.chat_id ∧
          p.data.chatId = sampleItemA.message.chat_id ∧
          p.data.messageId = sampleItemA.message.id ∧
          p.tag = "chat-" ++ toString sampleItemA.message.chat_id ∧
          p.data.chatId ≠ sampleItemB.message.chat_id)) :=
  ⟨rfl, by decide,
    batch_merges_across_chats 5 emptyCoal rfl sampleItemA sampleItemB (by decide)⟩

/-! ### Push target computation (C2) -/

/-- C2 counterexample: the claim that push notifications are dispatched
only to members with no active connection in the room is false.  With
chat 7 = {1, 2}, sender 1, and user 2 present via a connection (an
arbitrary presence set, since `sendMessageNotification` takes no
presence input at all), user 2 is still a computed push target. -/
theorem push_targets_presence_cex :
    ¬ (∀ (db : Db) (message : MsgInfo) (excl : Option Nat) (present : List Nat),
        (∀ u ∈ present, (message.chat_id, u) ∈ db.chat_participants ∧ u ≠ message.user_id) →
        ∀ u ∈ present, u ∉ notificationTargets db message.chat_id message.user_id excl) := by
  intro h
  exact h ⟨[(7, 1), (7, 2)], [], [], []⟩ sampleMsgA none [2]
    (by decide) 2 (by decide) (by decide)

/-- C2 amended: `sendMessageNotification` computes its dispatch targets
as exactly the chat's members minus the excluded sender — presence via
the connection registry is never consulted, so a member with an active
connection in the room is still dispatched to. -/
theorem push_targets_members_except_sender (db : Db) (msgChatId msgUserId : Nat)
    (excl : Option Nat) (u : Nat) :
    u ∈ notificationTargets db msgChatId msgUserId excl ↔
      ((msgChatId, u) ∈ db.chat_participants ∧ u ≠ excl.getD msgUserId) := by
  unfold notificationTargets
  simp only [List.mem_dedup, List.mem_map, List.mem_filter, decide_eq_true_eq]
  constructor
  · rintro ⟨⟨c, v⟩, ⟨hmem, hc, hv⟩, rfl⟩
    subst hc
    exact ⟨hmem, hv⟩
  · rintro ⟨hmem, hv⟩
    exact ⟨(msgChatId, u), ⟨hmem, rfl, hv⟩, rfl⟩

/-! ### Message status writes (C3) -/

/-- C3 counterexample: with message 1 already `read` and user 1 a
participant, `PATCH /:messageId/status` with target `delivered` writes
`delivered` over `read` — a backward move on the
`sent < delivered < read` lattice. -/
theorem status_backward_cex :
    dbStatusCex.messages.map (·.status) = [.read] ∧
    (patchMessageStatus dbStatusCex 1 1 .delivered 5).1.messages.map (·.status)
      = [.delivered] ∧
    statusRank .delivered < statusRank .read :=
  ⟨rfl, by decide, by decide⟩

theorem findMessage_update (ms : List MessageRow) (mid : Nat) (st : MessageStatus)
    (now : Nat) (m : MessageRow)
    (hm : ms.find? (fun x => decide (x.id = mid)) = some m) :
    (updateMessageStatus ms mid st now).find? (fun x => decide (x.id = mid))
      = some { m with status := st, updated_at := now } := by
  induction ms with
  | nil => simp [List.find?] at hm
  | cons a as ih =>
    by_cases ha : a.id = mid
    · have hpa : (fun x : MessageRow => decide (x.id = mid)) a = true := by simp [ha]
      rw [List.find?_cons_of_pos as hpa] at hm
      injection hm with hm
      subst hm
      have hpa2 : (fun x : MessageRow => decide (x.id = mid))
          { a with status := st, updated_at := now } = true := by simp [ha]
      unfold updateMessageStatus
      rw [List.map_cons, if_pos ha]
      exact List.find?_cons_of_pos _ hpa2
    · have hpa : ¬ ((fun x : MessageRow => decide (x.id = mid)) a = true) := by simp [ha]
      rw [List.find?_cons_of_neg as hpa] at hm
      unfold updateMessageStatus
      rw [List.map_cons, if_neg ha]
      have hend := @List.find?_cons_of_neg MessageRow
        (fun x : MessageRow => decide (x.id = mid)) a
        (updateMessageStatus as mid st now) hpa
      unfold updateMessageStatus at hend
      rw [hend]
      exact ih hm

/-- C3 amended: when the access check passes, the status route writes
exactly the requested status, unconditionally — the current status is
never consulted, so a later status may be replaced by an earlier one. -/
theorem patch_status_writes_unconditionally (db : Db) (userId mid : Nat)
    (st : MessageStatus) (now : Nat) (m : MessageRow)
    (hm : findMessage db mid = some m)
    (hacc : db.chat_participants.contains (m.chat_id, userId) = true) :
    findMessage (patchMessageStatus db userId mid st now).1 mid
      = some { m with status := st, updated_at := now } := by
  have hmem : m ∈ db.messages := List.mem_of_find?_eq_some hm
  have hid : m.id = mid := by
    have := List.find?_some hm
    simpa using this
  have hany : db.messages.any (fun x =>
      decide (x.id = mid) && db.chat_participants.contains (x.chat_id, userId)) = true := by
    rw [List.any_eq_true]
    exact ⟨m, hmem, by rw [hid, hacc]; simp⟩
  unfold patchMessageStatus
  rw [if_pos hany]
  exact findMessage_update db.messages mid st now m hm

/-- Witness for the amended C3: user 1 writes `sent` over `read`. -/
theorem patch_status_writes_unconditionally_witness :
    (findMessage dbStatusCex 1 = some msgReadRow) ∧
    (dbStatusCex.chat_participants.contains (msgReadRow.chat_id, 1) = true) ∧
    (findMessage (patchMessageStatus dbStatusCex 1 1 .sent 9).1 1
      = some { msgReadRow with status := .sent, updated_at := 9 }) :=
  ⟨by decide, by decide,
    patch_status_writes_unconditionally dbStatusCex 1 1 .sent 9 msgReadRow
      (by decide) (by decide)⟩

/-! ### Access control (C4) -/

/-- C4 counterexample: the edit route checks only `m.sender_id = $user`
— there is no `chat_participants` join — so user 1, who is not a
participant of chat 7 but did originally send message 1, successfully
edits it and the stored content changes. -/
theorem nonmember_edit_cex :
    isParticipant dbEditCex 7 1 = false ∧
    (editMessage dbEditCex 1 1 "changed" 9).2
      = .ok { msgFromUser1 with
                content := "changed"
                edited := true
                edited_at := some 9
                updated_at := 9 } ∧
    (editMessage dbEditCex 1 1 "changed" 9).1.messages.map (·.content) = ["changed"] :=
  ⟨by decide, by decide, by decide⟩

/-- C4 amended: a non-participant's send-message fails with the
`Access denied` error event and inserts nothing; a non-participant's
reaction add/remove fails with the 404 `Message not found or access
denied` response and changes no reaction row; edit-message, however, is
guarded by sendership (and text type) only: it fails with no mutation
for any actor who is not the original sender, but a non-participant who
is the original sender can still edit. -/
theorem access_control_amended (db : Db) (userId chatId : Nat)
    (content mtype : String) (q : Option QuotedMessage) (newId now : Nat)
    (messageId : Nat) (emoji : String)
    (hmem : isParticipant db chatId userId = false)
    (hchat : ∀ m ∈ db.messages, m.id = messageId →
        db.chat_participants.contains (m.chat_id, userId) = false)
    (hsender : ∀ m ∈ db.messages, m.id = messageId → m.sender_id ≠ userId) :
    sendMessageSocket db userId chatId content mtype q newId now
      = (db, .errorMsg "Access denied") ∧
    addReaction db userId messageId emoji now
      = (db, .error 404 "Message not found or access denied") ∧
    removeReaction db userId messageId emoji
      = (db, .error 404 "Message not found or access denied") ∧
    editMessage db userId messageId content now
      = (db, .error 404 "Message not found or you are not the sender") := by
  have hacc : messageAccessCheck db messageId userId = none := by
    unfold messageAccessCheck
    rw [List.find?_eq_none]
    intro m hm
    by_cases hid : m.id = messageId
    · rw [hchat m hm hid]
      simp
    · simp [hid]
  have hedit : db.messages.find?
      (fun m => decide (m.id = messageId ∧ m.sender_id = userId)) = none := by
    rw [List.find?_eq_none]
    intro m hm
    by_cases hid : m.id = messageId
    · simp [hid, hsender m hm hid]
    · simp [hid]
  refine ⟨?_, ?_, ?_, ?_⟩
  · simp [sendMessageSocket, hmem]
  · simp [addReaction, hacc]
  · simp [removeReaction, hacc]
  · unfold editMessage
    rw [hedit]

/-- Witness for the amended C4: user 1 against a chat that contains
only user 2 and a message sent by user 2. -/
theorem access_control_amended_witness :
    (isParticipant dbAccessWit 7 1 = false) ∧
    (∀ m ∈ dbAccessWit.messages, m.id = 1 →
        dbAccessWit.chat_participants.contains (m.chat_id, 1) = false) ∧
    (∀ m ∈ dbAccessWit.messages, m.id = 1 → m.sender_id ≠ 1) ∧
    (sendMessageSocket dbAccessWit 1 7 "hey" "text" none 2 3
        = (dbAccessWit, .errorMsg "Access denied") ∧
      addReaction dbAccessWit 1 1 "x" 3
        = (dbAccessWit, .error 404 "Message not found or access denied") ∧
      removeReaction dbAccessWit 1 1 "x"
        = (dbAccessWit, .error 404 "Message not found or access denied") ∧
      editMessage dbAccessWit 1 1 "hey" 3
        = (dbAccessWit, .error 404 "Message not found or you are not the sender")) :=
  ⟨by decide, by decide, by decide,
    access_control_amended dbAccessWit 1 7 "hey" "text" none 2 3 1 "x"
      (by decide) (by decide) (by decide)⟩

/-! ### Message lifecycle (C5) -/

theorem findMessage_append_fresh (ms : List MessageRow) (row : MessageRow)
    (mid : Nat) (hrow : row.id = mid) (hfresh : ∀ m ∈ ms, m.id ≠ mid) :
    (ms ++ [row]).find? (fun x => decide (x.id = mid)) = some row := by
  induction ms with
  | nil => simp [List.find?, hrow]
  | cons a as ih =>
    have ha : ¬ ((fun x : MessageRow => decide (x.id = mid)) a = true) := by
      simp [hfresh a (by simp)]
    rw [List.cons_append, List.find?_cons_of_neg (as ++ [row]) ha]
    exact ih fun m hm => hfresh m (by simp [hm])

/-- C5: a message accepted by `send-message` is persisted with status
`sent`; when the auto-advance timer fires, the status is written to
`delivered` and a `delivered` status event is broadcast; if at that
moment some connected socket in the room belongs to a non-sender, the
status is further written to `read` and a `read` event is broadcast. -/
theorem send_message_lifecycle (db : Db) (userId chatId : Nat)
    (content mtype : String) (q : Option QuotedMessage) (newId now now2 : Nat)
    (connected : List Nat)
    (hmem : isParticipant db chatId userId = true)
    (hfresh : ∀ m ∈ db.messages, m.id ≠ newId) :
    ∃ row : MessageRow,
      (sendMessageSocket db userId chatId content mtype q newId now).2 = .ok row ∧
      row.status = .sent ∧
      findMessage (sendMessageSocket db userId chatId content mtype q newId now).1 newId
        = some row ∧
      ((connected.filter (fun u => decide (u ≠ userId)) = [] →
          (findMessage (autoAdvanceStatus
              (sendMessageSocket db userId chatId content mtype q newId now).1
              newId userId connected now2).1 newId).map (·.status) = some .delivered ∧
          (autoAdvanceStatus (sendMessageSocket db userId chatId content mtype q newId now).1
              newId userId connected now2).2 = [⟨newId, .delivered⟩]) ∧
        (connected.filter (fun u => decide (u ≠ userId)) ≠ [] →
          (findMessage (autoAdvanceStatus
              (sendMessageSocket db userId chatId content mtype q newId now).1
              newId userId connected now2).1 newId).map (·.status) = some .read ∧
          (autoAdvanceStatus (sendMessageSocket db userId chatId content mtype q newId now).1
              newId userId connected now2).2
            = [⟨newId, .delivered⟩, ⟨newId, .read⟩])) := by
  have hsend : sendMessageSocket db userId chatId content mtype q newId now
      = ({ db with messages := db.messages ++ [sentRowOf userId chatId content mtype q newId now] },
         .ok (sentRowOf userId chatId content mtype q newId now)) := by
    unfold sendMessageSocket
    rw [if_pos hmem]
  have hfind : (db.messages ++ [sentRowOf userId chatId content mtype q newId now]).find?
      (fun x => decide (x.id = newId)) = some (sentRowOf userId chatId content mtype q newId now) :=
    findMessage_append_fresh db.messages _ newId rfl hfresh
  refine ⟨sentRowOf userId chatId content mtype q newId now, ?_, rfl, ?_, ?_, ?_⟩
  · rw [hsend]
  · rw [hsend]
    unfold findMessage
    exact hfind
  · intro hempty
    rw [hsend]
    unfold autoAdvanceStatus
    dsimp only
    rw [hempty]
    have hno : ¬ (([] : List Nat).length > 0) := by simp
    rw [if_neg hno]
    refine ⟨?_, rfl⟩
    show ((updateMessageStatus
        (db.messages ++ [sentRowOf userId chatId content mtype q newId now])
        newId .delivered now2).find? (fun x => decide (x.id = newId))).map (·.status)
      = some .delivered
    rw [findMessage_update _ newId .delivered now2 _ hfind]
    rfl
  · intro hne
    rw [hsend]
    unfold autoAdvanceStatus
    dsimp only
    have hlen : (connected.filter (fun u => decide (u ≠ userId))).length > 0 :=
      List.length_pos.mpr hne
    rw [if_pos hlen]
    refine ⟨?_, rfl⟩
    show ((updateMessageStatus (updateMessageStatus
        (db.messages ++ [sentRowOf userId chatId content mtype q newId now])
        newId .delivered now2) newId .read now2).find?
        (fun x => decide (x.id = newId))).map (·.status)
      = some .read
    rw [findMessage_update _ newId .read now2 _
      (findMessage_update _ newId .delivered now2 _ hfind)]
    rfl

/-- Witness for C5: user 1 sends "hi" in chat 7 while user 2's socket
is in the room. -/
theorem send_message_lifecycle_witness :
    (isParticipant dbLifecycleWit 7 1 = true) ∧
    (∀ m ∈ dbLifecycleWit.messages, m.id ≠ 1) ∧
    (∃ row : MessageRow,
      (sendMessageSocket dbLifecycleWit 1 7 "hi" "text" none 1 0).2 = .ok row ∧
      row.status = .sent ∧
      findMessage (sendMessageSocket dbLifecycleWit 1 7 "hi" "text" none 1 0).1 1
        = some row ∧
      ((([2] : List Nat).filter (fun u => decide (u ≠ 1)) = [] →
          (findMessage (autoAdvanceStatus
              (sendMessageSocket dbLifecycleWit 1 7 "hi" "text" none 1 0).1
              1 1 [2] 1).1 1).map (·.status) = some .delivered ∧
          (autoAdvanceStatus (sendMessageSocket dbLifecycleWit 1 7 "hi" "text" none 1 0).1
              1 1 [2] 1).2 = [⟨1, .delivered⟩]) ∧
        (([2] : List Nat).filter (fun u => decide (u ≠ 1)) ≠ [] →
          (findMessage (autoAdvanceStatus
              (sendMessageSocket dbLifecycleWit 1 7 "hi" "text" none 1 0).1
              1 1 [2] 1).1 1).map (·.status) = some .read ∧
          (autoAdvanceStatus (sendMessageSocket dbLifecycleWit 1 7 "hi" "text" none 1 0).1
              1 1 [2] 1).2 = [⟨1, .delivered⟩, ⟨1, .read⟩]))) :=
  ⟨by decide, by decide,
    send_message_lifecycle dbLifecycleWit 1 7 "hi" "text" none 1 0 1 [2]
      (by decide) (by decide)⟩

/-! ### Reaction identity (C6) -/

theorem matchesTriple_refresh (mid uid : Nat) (e : String) (r : ReactionRow) (t : Nat) :
    matchesTriple mid uid e { r with created_at := t } = matchesTriple mid uid e r := rfl

theorem countTriple_map_refresh (rs : List ReactionRow) (mid uid : Nat) (e : String)
    (t : Nat) :
    countTriple (rs.map fun r =>
        if matchesTriple mid uid e r then { r with created_at := t } else r) mid uid e
      = countTriple rs mid uid e := by
  unfold countTriple
  rw [List.filter_map, List.length_map]
  congr 1
  apply List.filter_congr
  intro r _
  by_cases hr : matchesTriple mid uid e r = true
  · simp [Function.comp, hr, matchesTriple_refresh]
  · simp [Function.comp, hr]

/-- After an upsert the triple is always present. -/
theorem any_upsert (rs : List ReactionRow) (mid uid : Nat) (e : String) (t : Nat) :
    (upsertReaction rs mid uid e t).any (matchesTriple mid uid e) = true := by
  unfold upsertReaction
  by_cases hany : rs.any (matchesTriple mid uid e) = true
  · rw [if_pos hany]
    rw [List.any_eq_true] at hany ⊢
    obtain ⟨r, hr, hpr⟩ := hany
    refine ⟨if matchesTriple mid uid e r then { r with created_at := t } else r,
      List.mem_map_of_mem _ hr, ?_⟩
    rw [if_pos hpr, matchesTriple_refresh]
    exact hpr
  · rw [if_neg hany, List.any_eq_true]
    exact ⟨⟨mid, uid, e, t⟩, by simp, by simp [matchesTriple]⟩

/-- Under the UNIQUE-constraint invariant (at most one stored row per
triple), an upsert leaves exactly one row with the triple. -/
theorem countTriple_upsert (rs : List ReactionRow) (mid uid : Nat) (e : String) (t : Nat)
    (hbound : countTriple rs mid uid e ≤ 1) :
    countTriple (upsertReaction rs mid uid e t) mid uid e = 1 := by
  unfold upsertReaction
  by_cases hany : rs.any (matchesTriple mid uid e) = true
  · rw [if_pos hany, countTriple_map_refresh]
    rw [List.any_eq_true] at hany
    obtain ⟨r, hr, hpr⟩ := hany
    have hpos : 0 < countTriple rs mid uid e := by
      unfold countTriple
      rw [List.length_pos]
      intro hnil
      have hmem : r ∈ rs.filter (matchesTriple mid uid e) :=
        List.mem_filter.mpr ⟨hr, hpr⟩
      rw [hnil] at hmem
      simp at hmem
    omega
  · rw [if_neg hany]
    unfold countTriple
    rw [List.filter_append]
    have hallf : ∀ a ∈ rs, ¬ (matchesTriple mid uid e a = true) := by
      intro a ha
      rw [Bool.not_eq_true] at hany ⊢
      rw [List.any_eq_false] at hany
      exact Bool.not_eq_true _ |>.mp (hany a ha)
    rw [List.filter_eq_nil_iff.mpr hallf]
    simp [matchesTriple]

/-- C6: reaction identity is the `(message, user, emoji)` triple: two
adds of the same triple leave exactly one stored row, the second add
being a pure timestamp refresh of the existing rows (no insertion); and
when the triple is absent, an add followed by a remove restores the
reaction table — hence the grouped aggregation view — exactly. -/
theorem reaction_triple_identity (rs : List ReactionRow) (users : List UserRow)
    (mid uid : Nat) (e : String) (t1 t2 : Nat)
    (hbound : countTriple rs mid uid e ≤ 1) :
    countTriple (upsertReaction (upsertReaction rs mid uid e t1) mid uid e t2)
        mid uid e = 1 ∧
    upsertReaction (upsertReaction rs mid uid e t1) mid uid e t2
      = (upsertReaction rs mid uid e t1).map
          (fun r => if matchesTriple mid uid e r then { r with created_at := t2 } else r) ∧
    (countTriple rs mid uid e = 0 →
      deleteReaction (upsertReaction rs mid uid e t1) mid uid e = rs ∧
      groupedReactions (deleteReaction (upsertReaction rs mid uid e t1) mid uid e) users mid
        = groupedReactions rs users mid) := by
  have h1 : countTriple (upsertReaction rs mid uid e t1) mid uid e = 1 :=
    countTriple_upsert rs mid uid e t1 hbound
  have key : ∀ xs : List ReactionRow, xs.any (matchesTriple mid uid e) = true →
      upsertReaction xs mid uid e t2 = xs.map
        (fun r => if matchesTriple mid uid e r then { r with created_at := t2 } else r) := by
    intro xs hxs
    unfold upsertReaction
    rw [if_pos hxs]
  refine ⟨countTriple_upsert _ mid uid e t2 (by omega),
    key _ (any_upsert rs mid uid e t1), ?_⟩
  intro habsent
  have hallf : ∀ a ∈ rs, ¬ (matchesTriple mid uid e a = true) := by
    have : rs.filter (matchesTriple mid uid e) = [] := by
      unfold countTriple at habsent
      exact List.length_eq_zero.mp habsent
    exact List.filter_eq_nil_iff.mp this
  have hanyf : ¬ (rs.any (matchesTriple mid uid e) = true) := by
    rw [List.any_eq_true]
    rintro ⟨r, hr, hpr⟩
    exact hallf r hr hpr
  have hins : upsertReaction rs mid uid e t1 = rs ++ [⟨mid, uid, e, t1⟩] := by
    unfold upsertReaction
    rw [if_neg hanyf]
  have hdel : deleteReaction (rs ++ [⟨mid, uid, e, t1⟩]) mid uid e = rs := by
    unfold deleteReaction
    rw [List.filter_append]
    have hself : rs.filter (fun r => !(matchesTriple mid uid e r)) = rs :=
      List.filter_eq_self.mpr fun a ha => by simp [hallf a ha]
    have hone : ([⟨mid, uid, e, t1⟩] : List ReactionRow).filter
        (fun r => !(matchesTriple mid uid e r)) = [] := by
      simp [matchesTriple]
    rw [hself, hone, List.append_nil]
  rw [hins, hdel]
  exact ⟨rfl, rfl⟩

/-- Witness for C6: user 2 reacts "x" twice to message 1, then removes. -/
theorem reaction_triple_identity_witness :
    (countTriple [] 1 2 "x" ≤ 1) ∧
    (countTriple (upsertReaction (upsertReaction [] 1 2 "x" 3) 1 2 "x" 4) 1 2 "x" = 1 ∧
      upsertReaction (upsertReaction [] 1 2 "x" 3) 1 2 "x" 4
        = (upsertReaction [] 1 2 "x" 3).map
            (fun r => if matchesTriple 1 2 "x" r then { r with created_at := 4 } else r) ∧
      (countTriple [] 1 2 "x" = 0 →
        deleteReaction (upsertReaction [] 1 2 "x" 3) 1 2 "x" = [] ∧
        groupedReactions (deleteReaction (upsertReaction [] 1 2 "x" 3) 1 2 "x") [] 1
          = groupedReactions [] [] 1)) :=
  ⟨by decide, reaction_triple_identity [] [] 1 2 "x" 3 4 (by decide)⟩

/-! ### Grouped reaction aggregation (C7) -/

/-- C7: the grouped aggregation returns one group per distinct emoji of
the message's (joined) reaction rows; each group's count is the number
of rows with that emoji and its users list aggregates exactly those
rows; and the group list is sorted by count descending with ties broken
by the emoji order ascending (`groupLE`). -/
theorem grouped_reactions_ordering (rs : List ReactionRow) (users : List UserRow)
    (mid : Nat) :
    ((groupedReactions rs users mid).map (·.emoji)).Nodup ∧
    (∀ e : String, e ∈ (groupedReactions rs users mid).map (·.emoji) ↔
        e ∈ (reactionRowsFor rs users mid).map (fun p => p.1.emoji)) ∧
    (∀ g ∈ groupedReactions rs users mid,
        g.count = ((reactionRowsFor rs users mid).filter
            (fun p => decide (p.1.emoji = g.emoji))).length ∧
        g.users = ((reactionRowsFor rs users mid).filter
            (fun p => decide (p.1.emoji = g.emoji))).map userEntry) ∧
    List.Sorted groupLE (groupedReactions rs users mid) := by
  have hperm : List.Perm (groupedReactions rs users mid)
      ((((reactionRowsFor rs users mid).map (fun p => p.1.emoji)).dedup).map
        (groupFor (reactionRowsFor rs users mid))) :=
    List.perm_insertionSort groupLE _
  have hmapperm : List.Perm ((groupedReactions rs users mid).map (·.emoji))
      (((reactionRowsFor rs users mid).map (fun p => p.1.emoji)).dedup) := by
    have h1 := hperm.map (·.emoji)
    have h2 : ((((reactionRowsFor rs users mid).map (fun p => p.1.emoji)).dedup).map
        (groupFor (reactionRowsFor rs users mid))).map (·.emoji)
        = (((reactionRowsFor rs users mid).map (fun p => p.1.emoji)).dedup) := by
      rw [List.map_map]
      apply List.map_id''
      intro e
      rfl
    rw [h2] at h1
    exact h1
  refine ⟨?_, ?_, ?_, ?_⟩
  · exact hmapperm.nodup_iff.mpr (List.nodup_dedup _)
  · intro e
    rw [hmapperm.mem_iff, List.mem_dedup]
  · intro g hg
    rw [hperm.mem_iff, List.mem_map] at hg
    obtain ⟨e, he, rfl⟩ := hg
    exact ⟨rfl, rfl⟩
  · exact List.sorted_insertionSort groupLE _

/-! ### Push dispatch failure handling (C8) -/

/-- The dispatch loop records one result per subscription, in order,
regardless of failures. -/
theorem sendLoop_results (uid : Nat) (outcome : String → PushOutcome) :
    ∀ (es : List String) (store : List SubscriptionRow),
      (sendLoop store uid outcome es).2 = es.map (fun e =>
        match outcome e with
        | .ok => ⟨true, none, e⟩
        | .fail _ msg => ⟨false, some msg, e⟩) := by
  intro es
  induction es with
  | nil => intro store; rfl
  | cons e rest ih =>
    intro store
    unfold sendLoop
    cases houtcome : outcome e with
    | ok => simp [houtcome, ih]
    | fail code msg => simp [houtcome, ih]

/-- The dispatch loop deletes from the store exactly the listed
subscriptions of this user whose outcome is a gone/expired signal. -/
theorem sendLoop_store (uid : Nat) (outcome : String → PushOutcome) :
    ∀ (es : List String) (store : List SubscriptionRow),
      (sendLoop store uid outcome es).1 = store.filter (fun r =>
        !(decide (r.user_id = uid) && isGoneSignal (outcome r.endpoint) &&
          decide (r.endpoint ∈ es))) := by
  intro es
  induction es with
  | nil =>
    intro store
    simp [sendLoop]
  | cons e rest ih =>
    intro store
    unfold sendLoop
    cases houtcome : outcome e with
    | ok =>
      dsimp only
      rw [ih]
      apply List.filter_congr
      intro r _
      by_cases he : r.endpoint = e
      · rw [he, houtcome]
        simp [isGoneSignal]
      · simp [he]
    | fail code msg =>
      dsimp only
      by_cases hgone : code = some 410 ∨ code = some 404
      · rw [if_pos hgone, ih]
        unfold removeSubscriptionRows
        rw [List.filter_filter]
        apply List.filter_congr
        intro r _
        by_cases he : r.endpoint = e
        · rw [he, houtcome]
          by_cases hu : r.user_id = uid
          · simp [isGoneSignal, hu, hgone]
          · simp [isGoneSignal, hu, hgone]
        · simp [he]
      · rw [if_neg hgone, ih]
        apply List.filter_congr
        intro r _
        by_cases he : r.endpoint = e
        · rw [he, houtcome]
          simp [isGoneSignal, hgone]
        · simp [he]

/-- `sendToUsers` attempts every listed recipient, whatever the
per-recipient outcomes. -/
theorem sendToUsers_targets (configured : Bool) (outcome : String → PushOutcome) :
    ∀ (userIds : List Nat) (store : List SubscriptionRow),
      (sendToUsers configured store outcome userIds).2.map Prod.fst = userIds := by
  intro userIds
  induction userIds with
  | nil => intro store; rfl
  | cons u rest ih =>
    intro store
    unfold sendToUsers
    simp [ih]

/-- C8: a subscription is deleted from the store iff its dispatch
outcome is a gone/expired-endpoint signal (status 410 or 404); every
subscription of the recipient is attempted and recorded whatever the
earlier outcomes; and every listed recipient is attempted whatever the
outcomes for other recipients. -/
theorem push_prune_on_gone (store : List SubscriptionRow) (uid : Nat)
    (outcome : String → PushOutcome)
    (hne : store.filter (fun r => decide (r.user_id = uid)) ≠ []) :
    (∀ r : SubscriptionRow, r ∈ (sendToUser true store uid outcome).1 ↔
        (r ∈ store ∧ ¬(r.user_id = uid ∧ isGoneSignal (outcome r.endpoint) = true))) ∧
    (∃ s : SendSummary, (sendToUser true store uid outcome).2 = .summary s ∧
        s.results.map (·.subscription)
          = (store.filter (fun r => decide (r.user_id = uid))).map (·.endpoint) ∧
        s.total = (store.filter (fun r => decide (r.user_id = uid))).length ∧
        (∀ ent ∈ s.results, (ent.success = true ↔ outcome ent.subscription = .ok))) ∧
    (∀ userIds : List Nat,
      (sendToUsers true store outcome userIds).2.map Prod.fst = userIds) := by
  have hempty : ((store.filter (fun r => decide (r.user_id = uid))).map
      (·.endpoint)).isEmpty = false := by
    rw [List.isEmpty_eq_false_iff_exists_mem]
    obtain ⟨r, hr⟩ := List.exists_mem_of_ne_nil _ hne
    exact ⟨r.endpoint, List.mem_map_of_mem _ hr⟩
  have hopen : sendToUser true store uid outcome =
      (let endpoints := (store.filter (fun r => decide (r.user_id = uid))).map (·.endpoint)
       let s := sendLoop store uid outcome endpoints
       let successCount := (s.2.filter (·.success)).length
       (s.1, .summary ⟨decide (0 < successCount), successCount, endpoints.length, s.2⟩)) := by
    unfold sendToUser
    rw [if_neg (by simp)]
    dsimp only
    rw [hempty]
    rfl
  refine ⟨?_, ?_, fun userIds => sendToUsers_targets true outcome userIds store⟩
  · intro r
    rw [hopen]
    dsimp only
    rw [sendLoop_store uid outcome _ store, List.mem_filter]
    constructor
    · rintro ⟨hr, hpred⟩
      refine ⟨hr, ?_⟩
      rintro ⟨hu, hgone⟩
      have hin : r.endpoint ∈ (store.filter
          (fun x => decide (x.user_id = uid))).map (·.endpoint) :=
        List.mem_map_of_mem _ (List.mem_filter.mpr ⟨hr, by simp [hu]⟩)
      rw [hu, hgone] at hpred
      simp [hin] at hpred
    · rintro ⟨hr, hnot⟩
      refine ⟨hr, ?_⟩
      by_cases hu : r.user_id = uid
      · have hgone : isGoneSignal (outcome r.endpoint) = false := by
          by_contra hc
          exact hnot ⟨hu, by revert hc; cases isGoneSignal (outcome r.endpoint) <;> simp⟩
        simp [hgone]
      · simp [hu]
  · rw [hopen]
    dsimp only
    refine ⟨_, rfl, ?_, by simp, ?_⟩
    · rw [sendLoop_results uid outcome _ store, List.map_map]
      apply List.map_id''
      intro e
      simp only [Function.comp_apply]
      cases houtcome : outcome e <;> simp [houtcome]
    · intro ent hent
      rw [sendLoop_results uid outcome _ store, List.mem_map] at hent
      obtain ⟨e, he, rfl⟩ := hent
      cases houtcome : outcome e with
      | ok => simp [houtcome]
      | fail code msg => simp [houtcome]

/-- Witness for C8: user 3 has subscriptions "a" (whose dispatch fails
with 410) and "b" (which succeeds); user 4 has "c". -/
theorem push_prune_on_gone_witness :
    (([⟨3, "a"⟩, ⟨3, "b"⟩, ⟨4, "c"⟩] : List SubscriptionRow).filter
        (fun r => decide (r.user_id = 3)) ≠ []) ∧
    ((∀ r : SubscriptionRow, r ∈ (sendToUser true [⟨3, "a"⟩, ⟨3, "b"⟩, ⟨4, "c"⟩] 3
          (fun e => if e = "a" then PushOutcome.fail (some 410) "gone" else .ok)).1 ↔
        (r ∈ ([⟨3, "a"⟩, ⟨3, "b"⟩, ⟨4, "c"⟩] : List SubscriptionRow) ∧
          ¬(r.user_id = 3 ∧ isGoneSignal
              ((fun e => if e = "a" then PushOutcome.fail (some 410) "gone" else .ok)
                r.endpoint) = true))) ∧
      (∃ s : SendSummary, (sendToUser true [⟨3, "a"⟩, ⟨3, "b"⟩, ⟨4, "c"⟩] 3
            (fun e => if e = "a" then PushOutcome.fail (some 410) "gone" else .ok)).2
          = .summary s ∧
          s.results.map (·.subscription)
            = (([⟨3, "a"⟩, ⟨3, "b"⟩, ⟨4, "c"⟩] : List SubscriptionRow).filter
                (fun r => decide (r.user_id = 3))).map (·.endpoint) ∧
          s.total = (([⟨3, "a"⟩, ⟨3, "b"⟩, ⟨4, "c"⟩] : List SubscriptionRow).filter
              (fun r => decide (r.user_id = 3))).length ∧
          (∀ ent ∈ s.results, (ent.success = true ↔
            (fun e => if e = "a" then PushOutcome.fail (some 410) "gone" else .ok)
              ent.subscription = .ok))) ∧
      (∀ userIds : List Nat,
        (sendToUsers true [⟨3, "a"⟩, ⟨3, "b"⟩, ⟨4, "c"⟩]
            (fun e => if e = "a" then PushOutcome.fail (some 410) "gone" else .ok)
            userIds).2.map Prod.fst = userIds)) :=
  ⟨by decide,
    push_prune_on_gone [⟨3, "a"⟩, ⟨3, "b"⟩, ⟨4, "c"⟩] 3
      (fun e => if e = "a" then PushOutcome.fail (some 410) "gone" else .ok)
      (by decide)⟩

/-! ### Bulk mark-as-read on join (C9) -/

/-- C9: when the `join-chat` membership check passes, every message of
the chat not sent by the joining user ends up `read` (set directly, in
one write, even from `sent`); every such message that was not already
`read` gets a `message-status-updated` broadcast; and all broadcast
events of this handler carry status `read` (no intermediate
`delivered`). -/
theorem join_chat_bulk_read (db : Db) (chatId userId now : Nat)
    (hmem : isParticipant db chatId userId = true) :
    (∀ m ∈ (joinChatMarkRead db chatId userId now).1.messages,
        m.chat_id = chatId → m.sender_id ≠ userId → m.status = .read) ∧
    (∀ m ∈ db.messages, m.chat_id = chatId → m.sender_id ≠ userId → m.status ≠ .read →
        (⟨m.id, .read⟩ : StatusEvent) ∈ (joinChatMarkRead db chatId userId now).2) ∧
    (∀ ev ∈ (joinChatMarkRead db chatId userId now).2, ev.status = .read) := by
  unfold joinChatMarkRead
  rw [if_pos hmem]
  dsimp only
  refine ⟨?_, ?_, ?_⟩
  · intro m hm hchat hsender
    rw [List.mem_map] at hm
    obtain ⟨x, hx, rfl⟩ := hm
    by_cases hcond : x.chat_id = chatId ∧ x.sender_id ≠ userId ∧ x.status ≠ .read
    · rw [if_pos hcond]
    · rw [if_neg hcond] at hchat hsender ⊢
      by_cases hst : x.status = .read
      · exact hst
      · exact absurd ⟨hchat, hsender, hst⟩ hcond
  · intro m hm hchat hsender hst
    have hcond : m.chat_id = chatId ∧ m.sender_id ≠ userId ∧ m.status ≠ .read :=
      ⟨hchat, hsender, hst⟩
    have hmem2 : ({ m with status := .read, updated_at := now } : MessageRow) ∈
        db.messages.map fun x =>
          if x.chat_id = chatId ∧ x.sender_id ≠ userId ∧ x.status ≠ .read then
            { x with status := .read, updated_at := now }
          else x := by
      have := List.mem_map_of_mem (fun x : MessageRow =>
        if x.chat_id = chatId ∧ x.sender_id ≠ userId ∧ x.status ≠ .read then
          { x with status := .read, updated_at := now }
        else x) hm
      dsimp only at this
      rw [if_pos hcond] at this
      exact this
    have hfil : ({ m with status := .read, updated_at := now } : MessageRow) ∈
        (db.messages.map fun x =>
          if x.chat_id = chatId ∧ x.sender_id ≠ userId ∧ x.status ≠ .read then
            { x with status := .read, updated_at := now }
          else x).filter fun x =>
            decide (x.chat_id = chatId ∧ x.sender_id ≠ userId ∧ x.status = .read) :=
      List.mem_filter.mpr ⟨hmem2, by simp [hchat, hsender]⟩
    have := List.mem_map_of_mem (fun x : MessageRow => (⟨x.id, .read⟩ : StatusEvent)) hfil
    exact this
  · intro ev hev
    rw [List.mem_map] at hev
    obtain ⟨x, hx, rfl⟩ := hev
    rfl

/-- Witness for C9: user 2 joins chat 7; user 1's `sent` message is
marked `read` and broadcast. -/
theorem join_chat_bulk_read_witness :
    (isParticipant dbJoinWit 7 2 = true) ∧
    ((∀ m ∈ (joinChatMarkRead dbJoinWit 7 2 5).1.messages,
        m.chat_id = 7 → m.sender_id ≠ 2 → m.status = .read) ∧
      (∀ m ∈ dbJoinWit.messages, m.chat_id = 7 → m.sender_id ≠ 2 → m.status ≠ .read →
        (⟨m.id, .read⟩ : StatusEvent) ∈ (joinChatMarkRead dbJoinWit 7 2 5).2) ∧
      (∀ ev ∈ (joinChatMarkRead dbJoinWit 7 2 5).2, ev.status = .read)) :=
  ⟨by decide, join_chat_bulk_read dbJoinWit 7 2 5 (by decide)⟩

end DoubleB
